import Mathlib

/-!
Shallow embedding of the Bayesian decomposition (bd) matrix factorization
engine of `src/methods/mf/bd.py`, together with proofs about its run loop,
stopping criterion, tracking and frame effects.

Matrices are lists of rows of rationals; the float arithmetic of the source
is modelled by exact rational arithmetic.  Attributes that Python leaves
unset or holds as `None` are modelled by `Option`, and Python truthiness is
made explicit (`truthyI`, `truthyQ`, `truthyN`), so that tests such as
`if self.max_iters and ...` keep their exact semantics, in particular for
the value `0`.  The Seeder collaborator (`self.seed.initialize`) is an
oracle `seed : Nat → Mat × Mat` giving the pair it returns in each run,
and the `while` loop of `factorize` carries explicit fuel; the loop
provably exits within two tests of the criterion (`runOnce_eval`), so all
end-to-end statements are made at fuel `fuel + 2` for arbitrary `fuel`.
-/

/-- Matrices as lists of rows of rationals. -/
abbrev Mat := List (List ℚ)

/-- Number of rows of a matrix. -/
def rowsM (A : Mat) : Nat := A.length

/-- Number of columns of a matrix (length of the first row, 0 when empty). -/
def colsM (A : Mat) : Nat := (A.headD []).length

/-- Entry `(i, j)` of a matrix, 0 outside the stored lists. -/
def ent (A : Mat) (i j : Nat) : ℚ := (A.getD i []).getD j 0

/-- Zero matrix, the default prior built by `_set_params` (bd.py lines 115-116). -/
def zerosM (r c : Nat) : Mat := List.replicate r (List.replicate c 0)

/-- Column `j` of a matrix as a list. -/
def colL (B : Mat) (j : Nat) : List ℚ := B.map fun br => br.getD j 0

/-- Dot product of two lists of rationals. -/
def dotL (xs ys : List ℚ) : ℚ := (List.zipWith (· * ·) xs ys).sum

/-- Matrix product, the `dot(W, H)` of the source. -/
def matMul (A B : Mat) : Mat :=
  A.map fun row => (List.range (colsM B)).map fun j => dotL row (colL B j)

/-- Entrywise difference `A - B`. -/
def matSub (A B : Mat) : Mat := List.zipWith (List.zipWith (· - ·)) A B

/-- Sum of the squares of all entries, `(elop(M, 2, pow)).sum()`. -/
def sqSum (M : Mat) : ℚ := (M.map fun row => (row.map fun x => x * x).sum).sum

/-- bd.py line 133: `(elop(self.V - dot(self.W, self.H), 2, pow)).sum()`,
the squared Frobenius norm of the residual. -/
def objective (V W H : Mat) : ℚ := sqSum (matSub V (matMul W H))

/-- Python truthiness of an optional integer attribute (`None` and `0` are falsy). -/
def truthyI : Option Int → Bool
  | none => false
  | some x => x != 0

/-- Python truthiness of an optional rational attribute (`None` and `0` are falsy). -/
def truthyQ : Option ℚ → Bool
  | none => false
  | some x => x != 0

/-- Python truthiness of an optional natural-number attribute (`None` and `0` are falsy). -/
def truthyN : Option Nat → Bool
  | none => false
  | some x => x != 0

/-- bd.py lines 103-111, `Bd._is_satisfied(pobj, cobj, iter)`:
`if self.max_iters and self.max_iters < iter: return False`;
`if self.min_residuals and iter > 0 and cobj - pobj <= self.min_residuals: return False`;
`if iter > 0 and cobj >= pobj: return False`; `return True`. -/
def is_satisfied (mi : Option Int) (mr : Option ℚ) (pobj cobj : ℚ) (iter : Nat) : Bool :=
  if truthyI mi = true ∧ mi.getD 0 < (iter : Int) then false
  else if truthyQ mr = true ∧ 0 < iter ∧ cobj - pobj ≤ mr.getD 0 then false
  else if 0 < iter ∧ pobj ≤ cobj then false
  else true

/-- The program state of a `Bd` instance: the attributes read and written by
`factorize`, `_set_params`, `update` and `objective`. -/
structure St where
  V : Mat
  rank : Nat
  W : Mat
  H : Mat
  m : Nat
  alpha : Mat
  beta : Mat
  theta : ℚ
  k : ℚ
  sigma : ℚ
  skip : Nat
  stride : Nat
  chains : Nat
  n_w : Mat
  n_h : Mat
  n_sigma : Nat
  v : ℚ
  n_iter : Nat
  final_obj : ℚ
  tracker : Option (List (Mat × Mat))

/-- The algorithm-specific keyword options dictionary read by `_set_params`
(`self.options.get(key, default)`); a `none` field is an absent key. -/
structure Opts where
  m : Option Nat
  alpha : Option Mat
  beta : Option Mat
  theta : Option ℚ
  k : Option ℚ
  sigma : Option ℚ
  skip : Option Nat
  stride : Option Nat
  chains : Option Nat
  n_w : Option Mat
  n_h : Option Mat
  n_sigma : Option Nat
  track : Option Nat

/-- The inherited generic stopping options (`max_iters`, `min_residuals`,
`test_conv`), attributes of the model object set by the external options layer. -/
structure StopCrit where
  max_iters : Option Int
  min_residuals : Option ℚ
  test_conv : Option Nat

/-- bd.py lines 113-126, `Bd._set_params`: resolve each option against its
default and create the tracker exactly when the `track` option is truthy and
`n_run > 1`.  The `W`, `H`, `v`, `n_iter`, `final_obj` fields are attributes
that `factorize` only assigns later; they start at placeholder values. -/
def set_params (V : Mat) (rank : Nat) (n_run : Nat) (o : Opts) : St :=
  { V := V
    rank := rank
    W := []
    H := []
    m := o.m.getD 30
    alpha := o.alpha.getD (zerosM (rowsM V) rank)
    beta := o.beta.getD (zerosM rank (colsM V))
    theta := o.theta.getD 0
    k := o.k.getD 0
    sigma := o.sigma.getD 1
    skip := o.skip.getD 100
    stride := o.stride.getD 1
    chains := o.chains.getD 1
    n_w := o.n_w.getD (zerosM rank 1)
    n_h := o.n_h.getD (zerosM rank 1)
    n_sigma := o.n_sigma.getD 0
    v := 0
    n_iter := 0
    final_obj := 0
    tracker := if truthyN o.track = true ∧ 1 < n_run then some [] else none }

/-- bd.py lines 128-129, `Bd.update`: the body is only the docstring, so the
step mutates nothing and returns the state unchanged. -/
def update (s : St) : St := s

/-- bd.py line 96: `self.tracker.append(mtrack.Mf_track(W = self.W.copy(), H = self.H.copy()))`,
guarded by `if self.tracker != None`.  The `.copy()` calls are value copies. -/
def trackAppend (s : St) : St :=
  match s.tracker with
  | none => s
  | some l => { s with tracker := some (l ++ [(s.W, s.H)]) }

/-- bd.py lines 86-90, the sweep loop of `factorize`, generic in the swept
state: `while self._is_satisfied(pobj, cobj, iter): pobj = cobj; self.update();
cobj = self.objective() if not self.test_conv or iter % self.test_conv == 0 else cobj;
iter += 1`.  The loop carries explicit fuel and yields `none` when it runs out. -/
def sweepLoop {σ : Type} (upd : σ → σ) (obj : σ → ℚ) (mi : Option Int) (mr : Option ℚ)
    (tc : Option Nat) : Nat → σ → ℚ → ℚ → Nat → Option (σ × ℚ × Nat)
  | 0, _, _, _, _ => none
  | fuel + 1, s, pobj, cobj, iter =>
    if is_satisfied mi mr pobj cobj iter = true then
      sweepLoop upd obj mi mr tc fuel (upd s) cobj
        (if truthyN tc = false ∨ iter % tc.getD 0 = 0 then obj (upd s) else cobj) (iter + 1)
    else some (s, cobj, iter)

/-- bd.py lines 83-96, the body of one run: seed `W` and `H`, set
`pobj = cobj = self.objective()`, loop, then append the tracker snapshot.
The callback collaborator is out of scope.  Returns the state together with
the `cobj` and `iter` locals that survive the run. -/
def runOnce (fuel : Nat) (c : StopCrit) (wh : Mat × Mat) (s : St) : Option (St × ℚ × Nat) :=
  match sweepLoop update (fun t => objective t.V t.W t.H) c.max_iters c.min_residuals c.test_conv
      fuel { s with W := wh.1, H := wh.2 } (objective s.V wh.1 wh.2) (objective s.V wh.1 wh.2) 0 with
  | none => none
  | some out => some (trackAppend out.1, out.2.1, out.2.2)

/-- bd.py line 82, `for _ in xrange(self.n_run)`: run the listed run indices in
order, threading the state and the `cobj`/`iter` locals of the last run. -/
def doRuns (fuel : Nat) (c : StopCrit) (seed : Nat → Mat × Mat) :
    List Nat → St → ℚ → Nat → Option (St × ℚ × Nat)
  | [], s, cobj, iter => some (s, cobj, iter)
  | r :: rest, s, _, _ =>
    match runOnce fuel c (seed r) s with
    | none => none
    | some out => doRuns fuel c seed rest out.1 out.2.1 out.2.2

/-- bd.py lines 73-101, `Bd.factorize`: `_set_params`, then
`self.v = multiply(self.V, self.V).sum() / 2.`, then the run loop, then
`self.n_iter = iter; self.final_obj = cobj`.  The returned `Mf_fit` wrapper
is an external collaborator, so the final state itself is returned. -/
def factorize (fuel : Nat) (V : Mat) (rank : Nat) (n_run : Nat) (o : Opts)
    (c : StopCrit) (seed : Nat → Mat × Mat) : Option St :=
  match doRuns fuel c seed (List.range n_run) { set_params V rank n_run o with v := sqSum V / 2 } 0 0 with
  | none => none
  | some out => some { out.1 with n_iter := out.2.2, final_obj := out.2.1 }

/-- The sweep loop driven by a synthetic objective trajectory, as in the
spec's stopping tests: the swept state is the number of completed sweeps and
`traj i` is the objective value after `i` sweeps (`traj 0` the initial one).
Returns the sweep index at which the loop stopped. -/
def engineStop (mi : Option Int) (mr : Option ℚ) (tc : Option Nat)
    (traj : Nat → ℚ) (fuel : Nat) : Option Nat :=
  match sweepLoop Nat.succ traj mi mr tc fuel 0 (traj 0) (traj 0) 0 with
  | none => none
  | some out => some out.2.2

/-- Closed-form value of `doRuns` at sufficient fuel, proved equal to it in
`doRuns_eval`: each run seeds `W`, `H`, evaluates the objective once, performs
at most one sweep, and appends the snapshot. -/
def runsModel (c : StopCrit) (seed : Nat → Mat × Mat) : List Nat → St × ℚ × Nat → St × ℚ × Nat
  | [], acc => acc
  | r :: rest, acc =>
    runsModel c seed rest
      (trackAppend { acc.1 with W := (seed r).1, H := (seed r).2 },
        objective acc.1.V (seed r).1 (seed r).2,
        if is_satisfied c.max_iters c.min_residuals (objective acc.1.V (seed r).1 (seed r).2)
            (objective acc.1.V (seed r).1 (seed r).2) 0 = true then 1 else 0)

/-- Spec-side objective (section 3 and 4.4): the sum over all positions of the
squared entries of the residual `V − W·H`, written as an indexed double sum
with the product entry expanded. -/
def objective_spec (V W H : Mat) : ℚ :=
  ∑ i in Finset.range (rowsM V), ∑ j in Finset.range (colsM V),
    (ent V i j - ∑ t in Finset.range (rowsM H), ent W i t * ent H t j) ^ 2

/-- Spec-side description of one run (section 4.4, state Initializing):
obtain `(W, H)` from the Seeder, set previous = current = the sum of squared
residuals, and proceed with the sweep loop.  Compared against `runOnce`. -/
def runOnce_spec (fuel : Nat) (c : StopCrit) (wh : Mat × Mat) (s : St) : Option (St × ℚ × Nat) :=
  match sweepLoop update (fun t => objective t.V t.W t.H) c.max_iters c.min_residuals c.test_conv
      fuel { s with W := wh.1, H := wh.2 } (objective_spec s.V wh.1 wh.2) (objective_spec s.V wh.1 wh.2) 0 with
  | none => none
  | some out => some (trackAppend out.1, out.2.1, out.2.2)

/-- Spec-side stopping condition of section 4.5, quoted by claim C1: continue
while all three clauses hold; an unset option is one that is Python-falsy. -/
def specContinue (mi : Option Int) (mr : Option ℚ) (pobj cobj : ℚ) (iter : Nat) : Prop :=
  (iter = 0 ∨ truthyI mi = false ∨ (iter : Int) ≤ mi.getD 0) ∧
  (iter = 0 ∨ truthyQ mr = false ∨ mr.getD 0 < cobj - pobj) ∧
  (iter = 0 ∨ cobj < pobj)

/-- Shape test: `A` has exactly `n` rows, each of length `m`. -/
def isMat (n m : Nat) (A : Mat) : Bool :=
  (A.length == n) && A.all fun row => row.length == m

/-- Entrywise non-negativity test. -/
def nonnegB (A : Mat) : Bool := A.all fun row => row.all fun x => decide (0 ≤ x)

/-- Non-negativity of one seeded `(W, H)` pair. -/
def snapNonneg (wh : Mat × Mat) : Bool := nonnegB wh.1 && nonnegB wh.2

/-- Non-negativity of the factors held in a state. -/
def stNonneg (s : St) : Bool := nonnegB s.W && nonnegB s.H

/-- The error kinds of the spec's error-handling design (section 7). -/
inductive BdError where
  | shapeMismatch : BdError
  | invalidHyper : BdError
deriving DecidableEq

/-- Modelled from the spec: the source `_set_params` (bd.py lines 113-126)
resolves options but performs no validation, and the sampler stub never reads
the hyperparameters, so the fail-fast validation of the spec's error-handling
design (section 7) has no counterpart under src/.  It is modelled here from
the spec's words: a shape mismatch of `alpha`, `beta` or the exclusion masks
against `V` and the rank, a negative prior rate, or a negative noise-variance
prior scale is detected once at configuration time. -/
def checkParams (V : Mat) (rank : Nat) (s : St) : Except BdError Unit :=
  if isMat (rowsM V) rank s.alpha = true ∧ isMat rank (colsM V) s.beta = true
      ∧ isMat rank 1 s.n_w = true ∧ isMat rank 1 s.n_h = true then
    if nonnegB s.alpha = true ∧ nonnegB s.beta = true ∧ 0 ≤ s.theta then Except.ok ()
    else Except.error BdError.invalidHyper
  else Except.error BdError.shapeMismatch

/-- Modelled from the spec: `factorize` preceded by the section 7 fail-fast
validation of the resolved parameters, which aborts the whole call before any
run starts when the configuration is invalid. -/
def factorizeChecked (fuel : Nat) (V : Mat) (rank : Nat) (n_run : Nat) (o : Opts)
    (c : StopCrit) (seed : Nat → Mat × Mat) : Except BdError (Option St) :=
  match checkParams V rank (set_params V rank n_run o) with
  | Except.error e => Except.error e
  | Except.ok _ => Except.ok (factorize fuel V rank n_run o c seed)

/-- Synthetic strictly decreasing objective trajectory 100, 99, 98, ... -/
def trajDec (n : Nat) : ℚ := ((100 - (n : Int) : Int) : ℚ)

/-- The synthetic objective trajectory [100, 80, 85] of the spec's stopping test. -/
def traj585 : Nat → ℚ
  | 0 => 100
  | 1 => 80
  | _ => 85

/-- Concrete 1×1 input matrix used by witnesses. -/
def Vc : Mat := [[1]]

/-- Concrete options dictionary with every key absent. -/
def oc : Opts :=
  { m := none, alpha := none, beta := none, theta := none, k := none, sigma := none
    skip := none, stride := none, chains := none, n_w := none, n_h := none
    n_sigma := none, track := none }

/-- Concrete options dictionary holding an `alpha` prior of the wrong shape. -/
def ocBad : Opts := { oc with alpha := some [[1], [2]] }

/-- Concrete stopping options with every attribute unset. -/
def cc : StopCrit := { max_iters := none, min_residuals := none, test_conv := none }

/-- Concrete seeding oracle returning the all-ones 1×1 factors. -/
def seedc : Nat → Mat × Mat := fun _ => ([[1]], [[1]])

/-- Characterization of `_is_satisfied`: it answers true exactly when none of
its three early-return conditions fires. -/
lemma sat_true_iff (mi : Option Int) (mr : Option ℚ) (pobj cobj : ℚ) (iter : Nat) :
    is_satisfied mi mr pobj cobj iter = true ↔
      ¬(truthyI mi = true ∧ mi.getD 0 < (iter : Int)) ∧
      ¬(truthyQ mr = true ∧ 0 < iter ∧ cobj - pobj ≤ mr.getD 0) ∧
      ¬(0 < iter ∧ pobj ≤ cobj) := by
  unfold is_satisfied
  split_ifs with h1 h2 h3 <;> simp_all

/-- With equal previous and current objectives the criterion stops at any
positive sweep index (third early return of `_is_satisfied`). -/
lemma sat_self_false (mi : Option Int) (mr : Option ℚ) (q : ℚ) (iter : Nat) :
    is_satisfied mi mr q q (iter + 1) = false := by
  unfold is_satisfied
  split_ifs with h1 h2 h3 <;> try rfl
  exact absurd ⟨Nat.succ_pos iter, le_refl q⟩ h3

/-- At sweep index 0 the criterion holds whenever `max_iters` is not negative. -/
lemma sat_zero (mi : Option Int) (mr : Option ℚ) (p c : ℚ) (h : 0 ≤ mi.getD 0) :
    is_satisfied mi mr p c 0 = true := by
  unfold is_satisfied
  split_ifs with h1 h2 h3 <;> try rfl
  · exact absurd h1.2 (by simpa using not_lt.mpr h)
  · exact absurd h2.2.1 (lt_irrefl 0)
  · exact absurd h3.1 (lt_irrefl 0)

/-- One unfolding of the sweep loop when the criterion holds. -/
lemma sweepLoop_cont {σ : Type} (upd : σ → σ) (obj : σ → ℚ) (mi : Option Int) (mr : Option ℚ)
    (tc : Option Nat) (fuel : Nat) (s : σ) (pobj cobj : ℚ) (iter : Nat)
    (h : is_satisfied mi mr pobj cobj iter = true) :
    sweepLoop upd obj mi mr tc (fuel + 1) s pobj cobj iter =
      sweepLoop upd obj mi mr tc fuel (upd s) cobj
        (if truthyN tc = false ∨ iter % tc.getD 0 = 0 then obj (upd s) else cobj) (iter + 1) := by
  simp [sweepLoop, h]

/-- One unfolding of the sweep loop when the criterion fails. -/
lemma sweepLoop_stop {σ : Type} (upd : σ → σ) (obj : σ → ℚ) (mi : Option Int) (mr : Option ℚ)
    (tc : Option Nat) (fuel : Nat) (s : σ) (pobj cobj : ℚ) (iter : Nat)
    (h : is_satisfied mi mr pobj cobj iter = false) :
    sweepLoop upd obj mi mr tc (fuel + 1) s pobj cobj iter = some (s, cobj, iter) := by
  simp [sweepLoop, h]

/-- Continuation step specialized to an unset `test_conv`, where the
objective is recomputed on every sweep. -/
lemma sweepLoop_cont_none {σ : Type} (upd : σ → σ) (obj : σ → ℚ) (mi : Option Int)
    (mr : Option ℚ) (fuel : Nat) (s : σ) (pobj cobj : ℚ) (iter : Nat)
    (h : is_satisfied mi mr pobj cobj iter = true) :
    sweepLoop upd obj mi mr none (fuel + 1) s pobj cobj iter =
      sweepLoop upd obj mi mr none fuel (upd s) cobj (obj (upd s)) (iter + 1) := by
  simp [sweepLoop, h, truthyN]

/-- The tracker append leaves the input matrix unchanged. -/
lemma trackAppend_V (s : St) : (trackAppend s).V = s.V := by
  unfold trackAppend; cases s.tracker <;> rfl

/-- The tracker append leaves the basis prior unchanged. -/
lemma trackAppend_alpha (s : St) : (trackAppend s).alpha = s.alpha := by
  unfold trackAppend; cases s.tracker <;> rfl

/-- The tracker append leaves the mixture prior unchanged. -/
lemma trackAppend_beta (s : St) : (trackAppend s).beta = s.beta := by
  unfold trackAppend; cases s.tracker <;> rfl

/-- The tracker append leaves the basis matrix unchanged. -/
lemma trackAppend_W (s : St) : (trackAppend s).W = s.W := by
  unfold trackAppend; cases s.tracker <;> rfl

/-- The tracker append leaves the mixture matrix unchanged. -/
lemma trackAppend_H (s : St) : (trackAppend s).H = s.H := by
  unfold trackAppend; cases s.tracker <;> rfl

/-- The tracker append pushes the current factors onto the snapshot list. -/
lemma trackAppend_tracker (s : St) :
    (trackAppend s).tracker = Option.map (fun l => l ++ [(s.W, s.H)]) s.tracker := by
  unfold trackAppend; cases h : s.tracker <;> simp [h]

/-- Evaluation of one run at sufficient fuel: because `update` is the
identity, the recomputed objective equals the initial one, the criterion
stops at sweep index 1 (or already at 0), and the state is returned with the
seeded factors and the snapshot appended. -/
lemma runOnce_eval (fuel : Nat) (c : StopCrit) (wh : Mat × Mat) (s : St) :
    runOnce (fuel + 2) c wh s =
      some (trackAppend { s with W := wh.1, H := wh.2 }, objective s.V wh.1 wh.2,
        if is_satisfied c.max_iters c.min_residuals (objective s.V wh.1 wh.2)
            (objective s.V wh.1 wh.2) 0 = true then 1 else 0) := by
  unfold runOnce
  by_cases h0 : is_satisfied c.max_iters c.min_residuals (objective s.V wh.1 wh.2)
      (objective s.V wh.1 wh.2) 0 = true
  · have step1 := sweepLoop_cont update (fun t => objective t.V t.W t.H) c.max_iters
      c.min_residuals c.test_conv (fuel + 1) { s with W := wh.1, H := wh.2 }
      (objective s.V wh.1 wh.2) (objective s.V wh.1 wh.2) 0 h0
    rw [if_pos (Or.inr (Nat.zero_mod _))] at step1
    have step2 : sweepLoop update (fun t => objective t.V t.W t.H) c.max_iters
        c.min_residuals c.test_conv (fuel + 1) { s with W := wh.1, H := wh.2 }
        (objective s.V wh.1 wh.2) (objective s.V wh.1 wh.2) 1 =
        some ({ s with W := wh.1, H := wh.2 }, objective s.V wh.1 wh.2, 1) :=
      sweepLoop_stop update (fun t => objective t.V t.W t.H) c.max_iters
        c.min_residuals c.test_conv fuel { s with W := wh.1, H := wh.2 }
        (objective s.V wh.1 wh.2) (objective s.V wh.1 wh.2) 1 (sat_self_false _ _ _ 0)
    rw [show fuel + 2 = fuel + 1 + 1 from rfl, step1.trans step2, if_pos h0]
  · have hf : is_satisfied c.max_iters c.min_residuals (objective s.V wh.1 wh.2)
        (objective s.V wh.1 wh.2) 0 = false := by
      simpa using h0
    rw [show fuel + 2 = fuel + 1 + 1 from rfl,
      sweepLoop_stop update (fun t => objective t.V t.W t.H) c.max_iters
        c.min_residuals c.test_conv (fuel + 1) { s with W := wh.1, H := wh.2 }
        (objective s.V wh.1 wh.2) (objective s.V wh.1 wh.2) 0 hf, if_neg h0]

/-- The run loop at sufficient fuel computes exactly `runsModel`. -/
lemma doRuns_eval (c : StopCrit) (seed : Nat → Mat × Mat) (runs : List Nat) :
    ∀ (fuel : Nat) (s : St) (cobj : ℚ) (iter : Nat),
      doRuns (fuel + 2) c seed runs s cobj iter = some (runsModel c seed runs (s, cobj, iter)) := by
  induction runs with
  | nil => intro fuel s cobj iter; rfl
  | cons r rest ih =>
    intro fuel s cobj iter
    simp only [doRuns, runOnce_eval]
    exact ih fuel _ _ _

/-- The run loop never touches `V`, `alpha` or `beta`. -/
lemma runsModel_const (c : StopCrit) (seed : Nat → Mat × Mat) (runs : List Nat) :
    ∀ acc : St × ℚ × Nat,
      ((runsModel c seed runs acc).1).V = acc.1.V ∧
      ((runsModel c seed runs acc).1).alpha = acc.1.alpha ∧
      ((runsModel c seed runs acc).1).beta = acc.1.beta := by
  induction runs with
  | nil => intro acc; exact ⟨rfl, rfl, rfl⟩
  | cons r rest ih =>
    intro acc
    obtain ⟨hV, ha, hb⟩ := ih (trackAppend { acc.1 with W := (seed r).1, H := (seed r).2 },
      objective acc.1.V (seed r).1 (seed r).2,
      if is_satisfied c.max_iters c.min_residuals (objective acc.1.V (seed r).1 (seed r).2)
          (objective acc.1.V (seed r).1 (seed r).2) 0 = true then 1 else 0)
    refine ⟨?_, ?_, ?_⟩
    · rw [runsModel, hV, trackAppend_V]
    · rw [runsModel, ha, trackAppend_alpha]
    · rw [runsModel, hb, trackAppend_beta]

/-- The run loop appends to the tracker exactly one snapshot per run, the
seeded factors of that run, in run order. -/
lemma runsModel_tracker (c : StopCrit) (seed : Nat → Mat × Mat) (runs : List Nat) :
    ∀ acc : St × ℚ × Nat,
      ((runsModel c seed runs acc).1).tracker =
        Option.map (fun l => l ++ runs.map seed) acc.1.tracker := by
  induction runs with
  | nil => intro acc; rw [runsModel]; cases acc.1.tracker <;> simp
  | cons r rest ih =>
    intro acc
    rw [runsModel, ih, trackAppend_tracker]
    cases acc.1.tracker <;> simp

/-- The run loop splits along list append. -/
lemma runsModel_append (c : StopCrit) (seed : Nat → Mat × Mat) (l1 l2 : List Nat) :
    ∀ acc : St × ℚ × Nat,
      runsModel c seed (l1 ++ l2) acc = runsModel c seed l2 (runsModel c seed l1 acc) := by
  induction l1 with
  | nil => intro acc; rfl
  | cons r rest ih => intro acc; rw [List.cons_append, runsModel, runsModel, ih]

/-- Evaluation of `factorize` at sufficient fuel. -/
lemma factorize_eval (fuel : Nat) (V : Mat) (rank n_run : Nat) (o : Opts)
    (c : StopCrit) (seed : Nat → Mat × Mat) :
    factorize (fuel + 2) V rank n_run o c seed =
      some { (runsModel c seed (List.range n_run)
                ({ set_params V rank n_run o with v := sqSum V / 2 }, 0, 0)).1 with
             n_iter := (runsModel c seed (List.range n_run)
                ({ set_params V rank n_run o with v := sqSum V / 2 }, 0, 0)).2.2,
             final_obj := (runsModel c seed (List.range n_run)
                ({ set_params V rank n_run o with v := sqSum V / 2 }, 0, 0)).2.1 } := by
  unfold factorize
  rw [doRuns_eval]

/-- A list sum as an indexed sum over positions. -/
lemma sum_list_eq (L : List ℚ) : L.sum = ∑ i in Finset.range L.length, L.getD i 0 := by
  induction L with
  | nil => simp
  | cons a t ih =>
    rw [List.sum_cons, List.length_cons, Finset.sum_range_succ', ih]
    simp [add_comm]

/-- The sum of a mapped list as an indexed sum over positions. -/
lemma map_sum_getD {α : Type} (L : List α) (f : α → ℚ) (d : α) :
    (L.map f).sum = ∑ i in Finset.range L.length, f (L.getD i d) := by
  rw [sum_list_eq, List.length_map]
  refine Finset.sum_congr rfl fun i hi => ?_
  have h : i < L.length := Finset.mem_range.mp hi
  rw [List.getD_eq_getElem _ _ (by simpa using h), List.getElem_map,
    List.getD_eq_getElem _ _ h]

/-- The list dot product as an indexed sum over positions. -/
lemma dotL_eq (xs ys : List ℚ) :
    dotL xs ys = ∑ t in Finset.range (min xs.length ys.length), xs.getD t 0 * ys.getD t 0 := by
  unfold dotL
  rw [sum_list_eq, List.length_zipWith]
  refine Finset.sum_congr rfl fun t ht => ?_
  have h : t < min xs.length ys.length := Finset.mem_range.mp ht
  rw [List.getD_eq_getElem _ _ (by simpa [List.length_zipWith] using h), List.getElem_zipWith,
    List.getD_eq_getElem _ _ (lt_of_lt_of_le h (min_le_left _ _)),
    List.getD_eq_getElem _ _ (lt_of_lt_of_le h (min_le_right _ _))]

/-- Unfolding of the shape test. -/
lemma isMat_iff {n m : Nat} {A : Mat} :
    isMat n m A = true ↔ A.length = n ∧ ∀ row ∈ A, row.length = m := by
  simp [isMat, List.all_eq_true]

/-- The source objective (list computation) agrees with the spec's indexed
sum of squared residual entries on well-shaped inputs. -/
lemma objective_eq_spec (V W H : Mat) (r : Nat) (hr : 1 ≤ r)
    (hV : isMat (rowsM V) (colsM V) V = true)
    (hW : isMat (rowsM V) r W = true)
    (hH : isMat r (colsM V) H = true) :
    objective V W H = objective_spec V W H := by
  obtain ⟨hVl, hVr⟩ := isMat_iff.mp hV
  obtain ⟨hWl, hWr⟩ := isMat_iff.mp hW
  obtain ⟨hHl, hHr⟩ := isMat_iff.mp hH
  have hcolsH : colsM H = colsM V := by
    cases H with
    | nil => simp [rowsM] at hHl; omega
    | cons h0 t =>
      show h0.length = colsM V
      exact hHr h0 (List.mem_cons_self _ _)
  unfold objective sqSum
  rw [map_sum_getD _ _ []]
  have hlen1 : (matSub V (matMul W H)).length = rowsM V := by
    simp [matSub, matMul, List.length_zipWith, hVl, hWl]
  rw [hlen1]
  unfold objective_spec
  refine Finset.sum_congr rfl fun i hi => ?_
  have hiV : i < V.length := by rw [hVl]; exact Finset.mem_range.mp hi
  have hiW : i < W.length := by rw [hWl]; exact Finset.mem_range.mp hi
  have hiM : i < (matMul W H).length := by simpa [matMul] using hiW
  have hiS : i < (matSub V (matMul W H)).length := by
    rw [hlen1]; exact Finset.mem_range.mp hi
  have hrow : (matSub V (matMul W H)).getD i [] =
      List.zipWith (fun a b => a - b) (V.getD i []) ((matMul W H).getD i []) := by
    rw [List.getD_eq_getElem _ _ hiS]
    unfold matSub
    rw [List.getElem_zipWith, List.getD_eq_getElem _ _ hiV, List.getD_eq_getElem _ _ hiM]
  have hVrow : (V.getD i []).length = colsM V := by
    rw [List.getD_eq_getElem _ _ hiV]
    exact hVr _ (List.getElem_mem hiV)
  have hMrow : ((matMul W H).getD i []).length = colsM V := by
    rw [List.getD_eq_getElem _ _ hiM]
    unfold matMul
    rw [List.getElem_map]
    simp [hcolsH]
  have hlen2 : (List.zipWith (fun a b => a - b) (V.getD i []) ((matMul W H).getD i [])).length
      = colsM V := by
    rw [List.length_zipWith, hVrow, hMrow, min_self]
  rw [hrow, map_sum_getD _ _ 0, hlen2]
  refine Finset.sum_congr rfl fun j hj => ?_
  have hjm : j < colsM V := Finset.mem_range.mp hj
  have hzj : (List.zipWith (fun a b => a - b) (V.getD i []) ((matMul W H).getD i [])).getD j 0
      = (V.getD i []).getD j 0 - ((matMul W H).getD i []).getD j 0 := by
    have p1 : j < (List.zipWith (fun a b => a - b) (V.getD i [])
        ((matMul W H).getD i [])).length := by rw [hlen2]; exact hjm
    have p2 : j < (V.getD i []).length := by rw [hVrow]; exact hjm
    have p3 : j < ((matMul W H).getD i []).length := by rw [hMrow]; exact hjm
    rw [List.getD_eq_getElem _ _ p1, List.getElem_zipWith,
      List.getD_eq_getElem _ _ p2, List.getD_eq_getElem _ _ p3]
  have hMij : ((matMul W H).getD i []).getD j 0 = dotL (W.getD i []) (colL H j) := by
    have e1 : (matMul W H).getD i [] =
        (List.range (colsM H)).map fun j2 => dotL (W.getD i []) (colL H j2) := by
      rw [List.getD_eq_getElem _ _ hiM]
      unfold matMul
      rw [List.getElem_map, List.getD_eq_getElem _ _ hiW]
    rw [e1]
    have p : j < ((List.range (colsM H)).map
        fun j2 => dotL (W.getD i []) (colL H j2)).length := by
      simpa [hcolsH] using hjm
    rw [List.getD_eq_getElem _ _ p, List.getElem_map, List.getElem_range]
  have hdot : dotL (W.getD i []) (colL H j)
      = ∑ t in Finset.range (rowsM H), ent W i t * ent H t j := by
    rw [dotL_eq]
    have h1 : (W.getD i []).length = r := by
      rw [List.getD_eq_getElem _ _ hiW]
      exact hWr _ (List.getElem_mem hiW)
    have h2 : (colL H j).length = r := by simp [colL, hHl]
    have h3 : rowsM H = r := hHl
    rw [h1, h2, min_self, h3]
    refine Finset.sum_congr rfl fun t ht => ?_
    have htr : t < r := Finset.mem_range.mp ht
    have hcol : (colL H j).getD t 0 = ent H t j := by
      unfold colL ent
      have htl : t < (H.map fun br => br.getD j 0).length := by
        simp only [List.length_map, hHl]; exact htr
      have htH : t < H.length := by rw [hHl]; exact htr
      rw [List.getD_eq_getElem _ _ htl, List.getElem_map, List.getD_eq_getElem H [] htH]
    rw [hcol]
    rfl
  rw [hzj, hMij, hdot, pow_two]
  rfl

/-- With `max_iters = 5` and `min_residuals` unset, the criterion holds at
sweep index 0 and at any index at most 5 with a strictly smaller current
objective. -/
lemma sat_bounded (p c' : ℚ) (iter : Nat) (hle : (iter : Int) ≤ 5)
    (hc : iter = 0 ∨ c' < p) :
    is_satisfied (some 5) none p c' iter = true := by
  rw [sat_true_iff]
  refine ⟨?_, ?_, ?_⟩
  · rintro ⟨-, hlt⟩
    simp only [Option.getD_some] at hlt
    omega
  · rintro ⟨hT, -, -⟩
    simp [truthyQ] at hT
  · rintro ⟨hpos, hge⟩
    rcases hc with h0 | h0
    · omega
    · exact absurd hge (not_le.mpr h0)

/-- With `max_iters = 5` the criterion fails at any sweep index above 5. -/
lemma sat_maxed (p c' : ℚ) (iter : Nat) (h : (5 : Int) < (iter : Int)) :
    is_satisfied (some 5) none p c' iter = false := by
  unfold is_satisfied
  rw [if_pos (⟨by decide, by simpa using h⟩ :
    truthyI (some 5) = true ∧ (some 5 : Option Int).getD 0 < (iter : Int))]

/-- C1: the stopping predicate `_is_satisfied(pobj, cobj, iter)` returns True
(continue sweeping) exactly when all three clauses of the spec's stopping rule
hold, and returns False as soon as one fails, for every `pobj`, `cobj` and
every sweep index; an unset `max_iters` or `min_residuals` is one that is
Python-falsy (absent or 0), and `max_iters`, an iteration bound, is not
negative. -/
theorem C1_stopping_predicate (mi : Option Int) (mr : Option ℚ) (pobj cobj : ℚ) (iter : Nat)
    (h : 0 ≤ mi.getD 0) :
    is_satisfied mi mr pobj cobj iter = true ↔ specContinue mi mr pobj cobj iter := by
  rw [sat_true_iff]
  unfold specContinue
  constructor
  · rintro ⟨h1, h2, h3⟩
    refine ⟨?_, ?_, ?_⟩
    · by_cases hT : truthyI mi = true
      · right; right
        by_contra hlt
        exact h1 ⟨hT, not_le.mp hlt⟩
      · right; left; simpa using hT
    · by_cases hT : truthyQ mr = true
      · rcases Nat.eq_zero_or_pos iter with h0 | h0
        · left; exact h0
        · right; right
          by_contra hle
          exact h2 ⟨hT, h0, not_lt.mp hle⟩
      · right; left; simpa using hT
    · rcases Nat.eq_zero_or_pos iter with h0 | h0
      · left; exact h0
      · right
        by_contra hle
        exact h3 ⟨h0, not_lt.mp hle⟩
  · rintro ⟨h1, h2, h3⟩
    refine ⟨?_, ?_, ?_⟩
    · rintro ⟨hT, hlt⟩
      rcases h1 with h0 | hT' | hle
      · subst h0
        simp only [Nat.cast_zero] at hlt
        omega
      · simp [hT] at hT'
      · exact absurd hlt (not_lt.mpr hle)
    · rintro ⟨hT, hpos, hle⟩
      rcases h2 with h0 | hT' | hlt
      · omega
      · simp [hT] at hT'
      · exact absurd hle (not_le.mpr hlt)
    · rintro ⟨hpos, hge⟩
      rcases h3 with h0 | hlt
      · omega
      · exact absurd hge (not_le.mpr hlt)

/-- C1 witness: the equivalence applied at `max_iters = 2`, `min_residuals = 1`,
`pobj = 10`, `cobj = 8`, `iter = 1`. -/
theorem C1_stopping_predicate_witness :
    (0 : Int) ≤ (some 2 : Option Int).getD 0 ∧
    (is_satisfied (some 2) (some 1) 10 8 1 = true ↔ specContinue (some 2) (some 1) 10 8 1) :=
  ⟨by decide, C1_stopping_predicate (some 2) (some 1) 10 8 1 (by decide)⟩

/-- C2 counterexample: with `max_iters = 5`, `min_residuals` unset and the
strictly decreasing trajectory 100, 99, 98, ..., the engine does not stop at
sweep 5: it stops at sweep 6, because the first check (`max_iters < iter`)
still admits the sweep performed at `iter = 5`. -/
theorem C2_counterexample :
    engineStop (some 5) none none trajDec 10 ≠ some 5 ∧
    engineStop (some 5) none none trajDec 10 = some 6 := by
  exact ⟨by decide, by decide⟩

/-- C2 (amended): with `max_iters = 5` set, `min_residuals` unset, and an
objective trajectory strictly decreasing over the first five sweeps, the
engine executes exactly 6 sweeps (one more than `max_iters`, the sweeps at
`iter = 0, ..., 5`) and then stops, regardless of the size of the residual
improvements. -/
theorem C2_amended_six_sweeps (traj : Nat → ℚ) (h1 : traj 1 < traj 0) (h2 : traj 2 < traj 1)
    (h3 : traj 3 < traj 2) (h4 : traj 4 < traj 3) (h5 : traj 5 < traj 4) :
    engineStop (some 5) none none traj 7 = some 6 := by
  have e0 : sweepLoop Nat.succ traj (some 5) none none (6 + 1) 0 (traj 0) (traj 0) 0 =
      sweepLoop Nat.succ traj (some 5) none none 6 1 (traj 0) (traj 1) 1 :=
    sweepLoop_cont_none Nat.succ traj (some 5) none 6 0 (traj 0) (traj 0) 0
      (sat_bounded (traj 0) (traj 0) 0 (by norm_num) (Or.inl rfl))
  have e1 : sweepLoop Nat.succ traj (some 5) none none 6 1 (traj 0) (traj 1) 1 =
      sweepLoop Nat.succ traj (some 5) none none 5 2 (traj 1) (traj 2) 2 :=
    sweepLoop_cont_none Nat.succ traj (some 5) none 5 1 (traj 0) (traj 1) 1
      (sat_bounded (traj 0) (traj 1) 1 (by norm_num) (Or.inr h1))
  have e2 : sweepLoop Nat.succ traj (some 5) none none 5 2 (traj 1) (traj 2) 2 =
      sweepLoop Nat.succ traj (some 5) none none 4 3 (traj 2) (traj 3) 3 :=
    sweepLoop_cont_none Nat.succ traj (some 5) none 4 2 (traj 1) (traj 2) 2
      (sat_bounded (traj 1) (traj 2) 2 (by norm_num) (Or.inr h2))
  have e3 : sweepLoop Nat.succ traj (some 5) none none 4 3 (traj 2) (traj 3) 3 =
      sweepLoop Nat.succ traj (some 5) none none 3 4 (traj 3) (traj 4) 4 :=
    sweepLoop_cont_none Nat.succ traj (some 5) none 3 3 (traj 2) (traj 3) 3
      (sat_bounded (traj 2) (traj 3) 3 (by norm_num) (Or.inr h3))
  have e4 : sweepLoop Nat.succ traj (some 5) none none 3 4 (traj 3) (traj 4) 4 =
      sweepLoop Nat.succ traj (some 5) none none 2 5 (traj 4) (traj 5) 5 :=
    sweepLoop_cont_none Nat.succ traj (some 5) none 2 4 (traj 3) (traj 4) 4
      (sat_bounded (traj 3) (traj 4) 4 (by norm_num) (Or.inr h4))
  have e5 : sweepLoop Nat.succ traj (some 5) none none 2 5 (traj 4) (traj 5) 5 =
      sweepLoop Nat.succ traj (some 5) none none 1 6 (traj 5) (traj 6) 6 :=
    sweepLoop_cont_none Nat.succ traj (some 5) none 1 5 (traj 4) (traj 5) 5
      (sat_bounded (traj 4) (traj 5) 5 (by norm_num) (Or.inr h5))
  have estop : sweepLoop Nat.succ traj (some 5) none none 1 6 (traj 5) (traj 6) 6 =
      some (6, traj 6, 6) :=
    sweepLoop_stop Nat.succ traj (some 5) none none 0 6 (traj 5) (traj 6) 6
      (sat_maxed (traj 5) (traj 6) 6 (by norm_num))
  have hloop : sweepLoop Nat.succ traj (some 5) none none 7 0 (traj 0) (traj 0) 0 =
      some (6, traj 6, 6) :=
    e0.trans (e1.trans (e2.trans (e3.trans (e4.trans (e5.trans estop)))))
  unfold engineStop
  rw [hloop]

/-- C2 amended witness: the amended claim applied to the concrete strictly
decreasing trajectory 100, 99, 98, ... -/
theorem C2_amended_six_sweeps_witness :
    trajDec 1 < trajDec 0 ∧ trajDec 2 < trajDec 1 ∧ trajDec 3 < trajDec 2 ∧
    trajDec 4 < trajDec 3 ∧ trajDec 5 < trajDec 4 ∧
    engineStop (some 5) none none trajDec 7 = some 6 :=
  ⟨by decide, by decide, by decide, by decide, by decide,
    C2_amended_six_sweeps trajDec (by decide) (by decide) (by decide) (by decide) (by decide)⟩

/-- C5: on the synthetic trajectory [100, 80, 85] with `min_residuals = 0`
(which is Python-falsy, so the residual check is skipped) and `max_iters`
unset, the engine stops after exactly sweep 2; the criterion still holds at
sweep 1 (80 < 100) and first fails at sweep 2 because `cobj ≥ pobj`
(85 ≥ 80). -/
theorem C5_trajectory_stops_after_two :
    engineStop none (some 0) none traj585 5 = some 2 ∧
    is_satisfied none (some 0) 100 80 1 = true ∧
    is_satisfied none (some 0) 80 85 2 = false :=
  ⟨by decide, by decide, by decide⟩

/-- Projection of the final-state update of `factorize`. -/
lemma St_upd_V (s : St) (a : Nat) (b : ℚ) : ({ s with n_iter := a, final_obj := b }).V = s.V := rfl

/-- Projection of the final-state update of `factorize`. -/
lemma St_upd_alpha (s : St) (a : Nat) (b : ℚ) :
    ({ s with n_iter := a, final_obj := b }).alpha = s.alpha := rfl

/-- Projection of the final-state update of `factorize`. -/
lemma St_upd_beta (s : St) (a : Nat) (b : ℚ) :
    ({ s with n_iter := a, final_obj := b }).beta = s.beta := rfl

/-- Projection of the final-state update of `factorize`. -/
lemma St_upd_W (s : St) (a : Nat) (b : ℚ) : ({ s with n_iter := a, final_obj := b }).W = s.W := rfl

/-- Projection of the final-state update of `factorize`. -/
lemma St_upd_H (s : St) (a : Nat) (b : ℚ) : ({ s with n_iter := a, final_obj := b }).H = s.H := rfl

/-- Projection of the final-state update of `factorize`. -/
lemma St_upd_n_iter (s : St) (a : Nat) (b : ℚ) :
    ({ s with n_iter := a, final_obj := b }).n_iter = a := rfl

/-- Projection of the final-state update of `factorize`. -/
lemma St_upd_tracker (s : St) (a : Nat) (b : ℚ) :
    ({ s with n_iter := a, final_obj := b }).tracker = s.tracker := rfl

/-- Projection of the `self.v` assignment of `factorize`. -/
lemma St_vupd_V (s : St) (q : ℚ) : ({ s with v := q }).V = s.V := rfl

/-- Projection of the `self.v` assignment of `factorize`. -/
lemma St_vupd_alpha (s : St) (q : ℚ) : ({ s with v := q }).alpha = s.alpha := rfl

/-- Projection of the `self.v` assignment of `factorize`. -/
lemma St_vupd_beta (s : St) (q : ℚ) : ({ s with v := q }).beta = s.beta := rfl

/-- Projection of the `self.v` assignment of `factorize`. -/
lemma St_vupd_tracker (s : St) (q : ℚ) : ({ s with v := q }).tracker = s.tracker := rfl

/-- Projection of the seeding assignment of a run. -/
lemma St_wh_W (s : St) (a b : Mat) : ({ s with W := a, H := b }).W = a := rfl

/-- Projection of the seeding assignment of a run. -/
lemma St_wh_H (s : St) (a b : Mat) : ({ s with W := a, H := b }).H = b := rfl

/-- The resolved parameters keep `V` itself. -/
lemma set_params_V (V : Mat) (rank n_run : Nat) (o : Opts) :
    (set_params V rank n_run o).V = V := rfl

/-- The resolved basis prior. -/
lemma set_params_alpha (V : Mat) (rank n_run : Nat) (o : Opts) :
    (set_params V rank n_run o).alpha = o.alpha.getD (zerosM (rowsM V) rank) := rfl

/-- The resolved mixture prior. -/
lemma set_params_beta (V : Mat) (rank n_run : Nat) (o : Opts) :
    (set_params V rank n_run o).beta = o.beta.getD (zerosM rank (colsM V)) := rfl

/-- The tracker creation rule of `_set_params`. -/
lemma set_params_tracker (V : Mat) (rank n_run : Nat) (o : Opts) :
    (set_params V rank n_run o).tracker =
      if truthyN o.track = true ∧ 1 < n_run then some [] else none := rfl

/-- The `track` field of an options update. -/
lemma Opts_track (o : Opts) (t : Option Nat) : ({ o with track := t }).track = t := rfl

/-- Peeling the last run off the run loop. -/
lemma runsModel_range_succ (c : StopCrit) (seed : Nat → Mat × Mat) (n : Nat)
    (acc : St × ℚ × Nat) :
    runsModel c seed (List.range (n + 1)) acc =
      (trackAppend { (runsModel c seed (List.range n) acc).1 with
          W := (seed n).1, H := (seed n).2 },
        objective (runsModel c seed (List.range n) acc).1.V (seed n).1 (seed n).2,
        if is_satisfied c.max_iters c.min_residuals
            (objective (runsModel c seed (List.range n) acc).1.V (seed n).1 (seed n).2)
            (objective (runsModel c seed (List.range n) acc).1.V (seed n).1 (seed n).2) 0 = true
        then 1 else 0) := by
  rw [List.range_succ, runsModel_append]
  rfl

/-- C3: the update() step changes no program state, so the `W` and `H`
surfaced by `factorize` are exactly the matrices returned by the Seeder in
the last run (index `n` of `n + 1` runs); no entry is ever resampled. -/
theorem C3_update_changes_nothing (fuel : Nat) (V : Mat) (rank n : Nat) (o : Opts)
    (c : StopCrit) (seed : Nat → Mat × Mat) :
    Option.map (fun s => (s.W, s.H)) (factorize (fuel + 2) V rank (n + 1) o c seed) =
      some (seed n) ∧
    ∀ t : St, update t = t := by
  refine ⟨?_, fun t => rfl⟩
  rw [factorize_eval]
  simp only [Option.map_some']
  rw [runsModel_range_succ]
  simp only [St_upd_W, St_upd_H, trackAppend_W, trackAppend_H, St_wh_W, St_wh_H]

/-- C4: in every configuration whose `max_iters` is unset, zero, or at least
1 (that is, not negative), every call of `factorize` performs exactly one
sweep per run: since `update` changes nothing the recomputed objective equals
the previous one, the criterion fails at `iter = 1`, and `factorize` returns
with `n_iter = 1`. -/
theorem C4_single_sweep (fuel : Nat) (V : Mat) (rank n : Nat) (o : Opts) (c : StopCrit)
    (seed : Nat → Mat × Mat) (h : 0 ≤ c.max_iters.getD 0) :
    Option.map St.n_iter (factorize (fuel + 2) V rank (n + 1) o c seed) = some 1 ∧
    ∀ (mi : Option Int) (mr : Option ℚ) (q : ℚ), is_satisfied mi mr q q 1 = false := by
  constructor
  · rw [factorize_eval]
    simp only [Option.map_some']
    rw [runsModel_range_succ, if_pos (sat_zero _ _ _ _ h)]
  · intro mi mr q
    simpa using sat_self_false mi mr q 0

/-- C4 witness: one run with all stopping options unset on the 1×1 input. -/
theorem C4_single_sweep_witness :
    (0 : Int) ≤ cc.max_iters.getD 0 ∧
    Option.map St.n_iter (factorize 2 Vc 1 1 oc cc seedc) = some 1 :=
  ⟨by decide, (C4_single_sweep 0 Vc 1 0 oc cc seedc (by decide)).1⟩

/-- C6: tracking is enabled exactly when the `track` option is truthy and
`n_run > 1`; when enabled, a snapshot of the final `(W, H)` of each run is
appended after the run completes and before the next starts, so with
`n_run = 3` and `track` set the tracker holds exactly the three per-run
snapshots, in run order.  Snapshots are value copies of the factors. -/
theorem C6_tracking_three_snapshots (V : Mat) (rank n_run : Nat) (o : Opts) :
    ((set_params V rank n_run o).tracker ≠ none ↔ truthyN o.track = true ∧ 1 < n_run) ∧
    ∀ (fuel : Nat) (c : StopCrit) (seed : Nat → Mat × Mat),
      Option.map St.tracker (factorize (fuel + 2) V rank 3 { o with track := some 1 } c seed) =
        some (some [seed 0, seed 1, seed 2]) := by
  constructor
  · rw [set_params_tracker]
    split_ifs with hc
    · simpa using hc
    · simpa using hc
  · intro fuel c seed
    rw [factorize_eval]
    simp only [Option.map_some', St_upd_tracker]
    rw [runsModel_tracker]
    simp only [St_vupd_tracker, set_params_tracker, Opts_track]
    rw [if_pos ⟨rfl, by norm_num⟩]
    have h3 : (List.range 3).map seed = [seed 0, seed 1, seed 2] := by
      have hr : List.range 3 = [0, 1, 2] := rfl
      rw [hr]; rfl
    rw [h3]
    simp

/-- C9: whenever the Seeder returns entrywise non-negative factors in every
run, every entry of `W` and `H` is still non-negative after every sweep of
`factorize` (the update step preserves the factors, hence their
non-negativity, and the surfaced factors are non-negative). -/
theorem C9_nonnegativity_preserved (fuel : Nat) (V : Mat) (rank n : Nat) (o : Opts)
    (c : StopCrit) (seed : Nat → Mat × Mat)
    (h : ((List.range (n + 1)).map seed).all snapNonneg = true) :
    Option.map stNonneg (factorize (fuel + 2) V rank (n + 1) o c seed) = some true ∧
    ∀ t : St, stNonneg (update t) = stNonneg t := by
  refine ⟨?_, fun t => rfl⟩
  have hn : snapNonneg (seed n) = true := by
    have hmem : seed n ∈ (List.range (n + 1)).map seed :=
      List.mem_map.mpr ⟨n, List.mem_range.mpr (Nat.lt_succ_self n), rfl⟩
    exact List.all_eq_true.mp h _ hmem
  rw [factorize_eval]
  simp only [Option.map_some']
  rw [runsModel_range_succ]
  unfold stNonneg
  simp only [St_upd_W, St_upd_H, trackAppend_W, trackAppend_H, St_wh_W, St_wh_H]
  have hn' : (nonnegB (seed n).1 && nonnegB (seed n).2) = true := hn
  rw [hn']

/-- C9 witness: one run seeded with the all-ones factors on the 1×1 input. -/
theorem C9_nonnegativity_preserved_witness :
    ((List.range 1).map seedc).all snapNonneg = true ∧
    Option.map stNonneg (factorize 2 Vc 1 1 oc cc seedc) = some true :=
  ⟨by decide, (C9_nonnegativity_preserved 0 Vc 1 0 oc cc seedc (by decide)).1⟩

/-- C10: `factorize` never mutates the input matrix `V`, and the prior-rate
matrices `alpha` and `beta` are exactly those resolved at configuration time,
for every input and configuration. -/
theorem C10_input_and_priors_immutable (fuel : Nat) (V : Mat) (rank n_run : Nat) (o : Opts)
    (c : StopCrit) (seed : Nat → Mat × Mat) :
    Option.map St.V (factorize (fuel + 2) V rank n_run o c seed) = some V ∧
    Option.map St.alpha (factorize (fuel + 2) V rank n_run o c seed) =
      some (set_params V rank n_run o).alpha ∧
    Option.map St.beta (factorize (fuel + 2) V rank n_run o c seed) =
      some (set_params V rank n_run o).beta := by
  obtain ⟨hV, ha, hb⟩ := runsModel_const c seed (List.range n_run)
    ({ set_params V rank n_run o with v := sqSum V / 2 }, 0, 0)
  refine ⟨?_, ?_, ?_⟩ <;> rw [factorize_eval] <;> simp only [Option.map_some']
  · rw [St_upd_V, hV, St_vupd_V, set_params_V]
  · rw [St_upd_alpha, ha, St_vupd_alpha]
  · rw [St_upd_beta, hb, St_vupd_beta]

/-- C7: a shape-mismatch or invalid-hyperparameter error in the resolved
configuration is detected once at run start and aborts the whole call before
any sweep is executed: the checked factorization returns that very error, and
the result is independent of the seeding oracle, of the stopping options and
of the sweep budget, so no sampling can have occurred. -/
theorem C7_config_errors_abort_before_sampling (V : Mat) (rank n_run : Nat) (o : Opts)
    (e : BdError) (h : checkParams V rank (set_params V rank n_run o) = Except.error e) :
    ∀ (fuel fuel' : Nat) (c c' : StopCrit) (seed seed' : Nat → Mat × Mat),
      factorizeChecked fuel V rank n_run o c seed = Except.error e ∧
      factorizeChecked fuel' V rank n_run o c' seed' = Except.error e := by
  intro fuel fuel' c c' seed seed'
  constructor <;> · unfold factorizeChecked; rw [h]

/-- C7 witness: an `alpha` prior of shape 2×1 against the 1×1 input with
rank 1 is rejected as a shape mismatch before any run. -/
theorem C7_config_errors_abort_before_sampling_witness :
    checkParams Vc 1 (set_params Vc 1 1 ocBad) = Except.error BdError.shapeMismatch ∧
    factorizeChecked 2 Vc 1 1 ocBad cc seedc = Except.error BdError.shapeMismatch :=
  ⟨by rfl, (C7_config_errors_abort_before_sampling Vc 1 1 ocBad BdError.shapeMismatch
    (by rfl) 2 2 cc cc seedc seedc).1⟩

/-- C8: at the start of each run, after obtaining `(W, H)` from the Seeder,
the engine sets the previous and current objectives to the same value, namely
the sum of the squared entries of the residual `V − W·H`: on well-shaped
inputs one run of the source engine coincides with the spec-side run that
starts from the indexed double-sum objective. -/
theorem C8_run_starts_with_equal_objectives (fuel : Nat) (c : StopCrit) (s : St)
    (wh : Mat × Mat) (r : Nat) (hr : 1 ≤ r)
    (hV : isMat (rowsM s.V) (colsM s.V) s.V = true)
    (hW : isMat (rowsM s.V) r wh.1 = true)
    (hH : isMat r (colsM s.V) wh.2 = true) :
    runOnce fuel c wh s = runOnce_spec fuel c wh s := by
  unfold runOnce runOnce_spec
  rw [objective_eq_spec s.V wh.1 wh.2 r hr hV hW hH]

/-- C8 witness: one run on the 1×1 input with concrete 1×1 factors. -/
theorem C8_run_starts_with_equal_objectives_witness :
    isMat (rowsM Vc) (colsM Vc) Vc = true ∧
    isMat (rowsM Vc) 1 [[(2 : ℚ)]] = true ∧
    isMat 1 (colsM Vc) [[(3 : ℚ)]] = true ∧
    runOnce 5 cc ([[(2 : ℚ)]], [[(3 : ℚ)]]) (set_params Vc 1 1 oc) =
      runOnce_spec 5 cc ([[(2 : ℚ)]], [[(3 : ℚ)]]) (set_params Vc 1 1 oc) :=
  ⟨by decide, by decide, by decide,
    C8_run_starts_with_equal_objectives 5 cc (set_params Vc 1 1 oc) ([[2]], [[3]]) 1
      (by decide) (by decide) (by decide) (by decide)⟩
